import Mathlib

/-!
Verification development for the conversational Google-assistant bot.

The definitions below are a shallow embedding of the decision logic of the
repository: the model-reply tag parser and prompt builder of
`gemini_processor.py`, the selection / composition / confirmation state
handlers of `bot.py`, the action-enrichment step, and the email-delete
outcome logic of `gmail_service.py`.  Strings are modelled as Lean
`String`, Python dictionaries as ordered key/value lists with
insert-or-overwrite semantics, and the asynchronous service calls as an
explicit `Except` oracle so that an exception raised during dispatch is
visible as an `Except.error` value.
-/

/-! ## Basic string helpers (Python `in`, `strip`, regex fragments) -/

/-- Boolean: `pat` is a prefix of `s` (character lists). -/
def listStartsWith : List Char → List Char → Bool
  | [], _ => true
  | _ :: _, [] => false
  | p :: ps, c :: cs => decide (p = c) && listStartsWith ps cs

/-- Boolean: `pat` occurs as a contiguous sublist of `s`.  Models the
Python substring test `pat in s`. -/
def listContainsSub (pat : List Char) : List Char → Bool
  | [] => pat.isEmpty
  | c :: cs => listStartsWith pat (c :: cs) || listContainsSub pat cs

/-- Python `pat in s` on strings. -/
def strContains (s pat : String) : Bool := listContainsSub pat.data s.data

/-- The single-quote character, written numerically. -/
def squote : Char := Char.ofNat 39

/-- Fold a digit run into a number (`int` of a `\d+` regex match). -/
def digitsToNat (ds : List Char) : Nat := ds.foldl (fun n c => n * 10 + (c.toNat - 48)) 0

/-- Leftmost maximal digit run of the text, as a number: models
`re.search(r"\d+", text)` followed by `int(match.group())`. -/
def firstNumber : List Char → Option Nat
  | [] => none
  | c :: cs =>
    if c.isDigit then some (digitsToNat (c :: cs.takeWhile Char.isDigit))
    else firstNumber cs

/-- ASCII whitespace class of the Python `\s` regex atom. -/
def isSpaceChar (c : Char) : Bool :=
  decide (c = ' ') || decide (c = '\t') || decide (c = '\n') || decide (c = '\r') ||
  decide (c = '\x0b') || decide (c = '\x0c')

/-- Character class `[A-Z]`. -/
def isUpperAZ (c : Char) : Bool := decide ('A' ≤ c) && decide (c ≤ 'Z')

/-- Strip every leading and trailing occurrence of one character:
Python `s.strip(ch)` for a single-character argument. -/
def stripChar (ch : Char) (s : List Char) : List Char :=
  ((s.dropWhile (fun c => decide (c = ch))).reverse.dropWhile (fun c => decide (c = ch))).reverse

/-- Python `s.strip()` on a character list. -/
def stripSpaces (s : List Char) : List Char :=
  ((s.dropWhile isSpaceChar).reverse.dropWhile isSpaceChar).reverse

/-- Python `s.strip()`. -/
def pyStrip (s : String) : String := String.mk (stripSpaces s.data)

/-- ASCII lower-casing of one character. -/
def pyLowerChar (c : Char) : Char :=
  if isUpperAZ c then Char.ofNat (c.toNat + 32) else c

/-- Python `s.lower()` (the inputs concerned are ASCII). -/
def pyLower (s : String) : String := String.mk (s.data.map pyLowerChar)

/-- Python `s.split(sep)` for a one-character separator: all pieces,
empty pieces included. -/
def splitOnChar (sep : Char) : List Char → List (List Char)
  | [] => [[]]
  | c :: cs =>
    match splitOnChar sep cs with
    | [] => [[]]
    | h :: t => if c = sep then [] :: h :: t else (c :: h) :: t

/-! ## Ordered key/value maps (Python `dict` with string keys) -/

/-- Insert-or-overwrite, keeping the position of an existing key, as a
Python `dict` assignment does. -/
def insertKV (k v : String) : List (String × String) → List (String × String)
  | [] => [(k, v)]
  | (k', v') :: rest => if k' = k then (k, v) :: rest else (k', v') :: insertKV k v rest

/-- Lookup, Python `d.get(k)`. -/
def lookupKV (k : String) : List (String × String) → Option String
  | [] => none
  | (k', v') :: rest => if k' = k then some v' else lookupKV k rest

/-! ## The model-reply tag grammar (`_parse_and_validate_response`)

The source extracts tags with the regex
`\[SERVICE_ACTION:\s*([A-Z]+)\s*\|([^\]]+)\]`, scanning left to right
with non-overlapping matches, and removes exactly the matched spans from
the displayed text.  For this pattern the regex engine is deterministic
(the character classes of adjacent atoms are disjoint), so matching at a
position is the straight-line function `matchTag` below. -/

/-- Consume an exact literal prefix, returning the remainder. -/
def dropLiteral : List Char → List Char → Option (List Char)
  | [], cs => some cs
  | _ :: _, [] => none
  | p :: ps, c :: cs => if c = p then dropLiteral ps cs else none

/-- The fixed literal head of a tag. -/
def tagLit : List Char := "[SERVICE_ACTION:".data

/-- Try to match one tag exactly at the head of `cs`; on success return
the service-name group, the body group (text between the pipe and the
closing bracket) and the remaining input after the closing bracket. -/
def matchTag (cs : List Char) : Option (String × String × List Char) :=
  match dropLiteral tagLit cs with
  | none => none
  | some r1 =>
    if ((r1.dropWhile isSpaceChar).takeWhile isUpperAZ).isEmpty then none
    else
      match dropLiteral ['|']
          (((r1.dropWhile isSpaceChar).dropWhile isUpperAZ).dropWhile isSpaceChar) with
      | none => none
      | some r4 =>
        if (r4.takeWhile (fun c => decide (c ≠ ']'))).isEmpty then none
        else
          match dropLiteral [']'] (r4.dropWhile (fun c => decide (c ≠ ']'))) with
          | none => none
          | some r5 =>
            some (String.mk ((r1.dropWhile isSpaceChar).takeWhile isUpperAZ),
                  String.mk (r4.takeWhile (fun c => decide (c ≠ ']'))), r5)

/-- Left-to-right non-overlapping scan: the remaining (non-tag) text and
the list of matched `(service, body)` groups in order.  Fuel-indexed so
that the function is structurally recursive; `scanTags` supplies enough
fuel for the whole input. -/
def scanTagsFuel : Nat → List Char → List Char × List (String × String)
  | 0, cs => (cs, [])
  | _ + 1, [] => ([], [])
  | fuel + 1, c :: rest =>
    match matchTag (c :: rest) with
    | some (svc, body, rem) =>
      let p := scanTagsFuel fuel rem
      (p.1, (svc, body) :: p.2)
    | none =>
      let p := scanTagsFuel fuel rest
      (c :: p.1, p.2)

/-- `re.findall` plus `re.sub` of the tag pattern in one pass. -/
def scanTags (cs : List Char) : List Char × List (String × String) :=
  scanTagsFuel cs.length cs

/-- Index of the last occurrence of a character in a list. -/
def lastIdxOf (ch : Char) : List Char → Option Nat
  | [] => none
  | c :: cs =>
    match lastIdxOf ch cs with
    | some k => some (k + 1)
    | none => if c = ch then some 0 else none

/-- One pass of `re.sub(r"\n\s*\n", "\n\n", s)`: at a newline, the greedy
`\s*` with backtracking matches up to the last newline inside the
following whitespace run. -/
def collapseBlankFuel : Nat → List Char → List Char
  | 0, cs => cs
  | _ + 1, [] => []
  | fuel + 1, c :: rest =>
    if c = '\n' then
      match lastIdxOf '\n' (rest.takeWhile isSpaceChar) with
      | some k => '\n' :: '\n' :: collapseBlankFuel fuel (rest.drop (k + 1))
      | none => c :: collapseBlankFuel fuel rest
    else c :: collapseBlankFuel fuel rest

/-- Blank-line collapsing over a whole string. -/
def collapseBlank (s : String) : String :=
  String.mk (collapseBlankFuel s.data.length s.data)

/-- The whitespace post-processing applied to the tag-stripped text:
`strip`, collapse blank lines, `strip`. -/
def postProcessText (s : String) : String := pyStrip (collapseBlank (pyStrip s))

/-- One parsed action request. -/
structure ActionReq where
  service : String
  action : String
  params : List (String × String)
deriving Repr, DecidableEq

/-- Parameter parsing of one tag body: split on `|`, split each piece at
its first `:`, strip whitespace from the key, strip whitespace and then
surrounding double and single quotes from the value, and keep the pair
when both are non-empty. -/
def splitAtFirst (sep : Char) : List Char → Option (List Char × List Char)
  | [] => none
  | c :: cs =>
    if c = sep then some ([], cs)
    else
      match splitAtFirst sep cs with
      | some (a, b) => some (c :: a, b)
      | none => none

/-- Python `value.strip().strip(chr(34)).strip(chr(39))`. -/
def cleanValue (v : String) : String :=
  String.mk (stripChar squote (stripChar '"' (stripSpaces v.data)))

/-- One step of parameter parsing: handle one pipe-separated piece. -/
def parseParamStep (acc : List (String × String)) (part : List Char) :
    List (String × String) :=
  match splitAtFirst ':' part with
  | none => acc
  | some (k, v) =>
    let key := String.mk (stripSpaces k)
    let value := cleanValue (String.mk v)
    if key ≠ "" && value ≠ "" then insertKV key value acc else acc

/-- Build the parameter dictionary of one tag. -/
def parseParams (paramsStr : String) : List (String × String) :=
  (splitOnChar '|' paramsStr.data).foldl parseParamStep []

/-- Validation of one matched tag: drop it when the (lower-cased) service
is not an enabled service, or when no non-empty `action` parameter was
parsed; otherwise produce the action request. -/
def validateTag (availableServices : List String) (svc body : String) : Option ActionReq :=
  if availableServices.contains (pyLower svc) then
    if (lookupKV "action" (parseParams body)).getD "" ≠ "" then
      some ⟨pyLower svc, (lookupKV "action" (parseParams body)).getD "", parseParams body⟩
    else none
  else none

/-- `_parse_and_validate_response`: returns the cleaned display text and
the validated action list, in tag order. -/
def parseAndValidateResponse (response : String) (availableServices : List String) :
    String × List ActionReq :=
  let scanned := scanTags response.data
  (postProcessText (String.mk scanned.1),
   scanned.2.filterMap (fun t => validateTag availableServices t.1 t.2))

/-! ## The rendered prompt of the probabilistic translator
(`_build_enhanced_prompt`)

The source renders one f-string.  Its only service-dependent part is the
`service_list` interpolation; every instruction, action-tag example and
worked example after the user message is a fixed block of text that
always describes calendar actions.  The f-string is reproduced below
with each interpolation turned into an explicit concatenation.  The
apostrophe character is written `apoStr`. -/

/-- A one-character string holding an apostrophe. -/
def apoStr : String := String.mk [squote]

/-- `', '.join(services.keys()) if services else 'No services'`. -/
def serviceListOf (services : List String) : String :=
  if services.isEmpty then "No services" else String.intercalate ", " services

/-- The constant block of the prompt that follows the user message: the
tag format, the calendar action catalogue, and the worked examples. -/
def promptTail : String :=
  "\"\n\nACTION FORMAT (use EXACT format):\n[SERVICE_ACTION: SERVICE_NAME | action: ACTION_TYPE | param1: \"value1\" | param2: \"value2\"]\n\nCALENDAR SERVICE ACTIONS:\n\nViewing Events (USE IMMEDIATELY for any calendar query):\n[SERVICE_ACTION: CALENDAR | action: VIEW_EVENTS | range: \"today\"]\n[SERVICE_ACTION: CALENDAR | action: VIEW_EVENTS | range: \"tomorrow\"]\n[SERVICE_ACTION: CALENDAR | action: VIEW_EVENTS | range: \"week\"]\n[SERVICE_ACTION: CALENDAR | action: VIEW_EVENTS | range: \"month\"]\n\nCreating Events:\n[SERVICE_ACTION: CALENDAR | action: CREATE_EVENT | title: \"Meeting\" | date: \"tomorrow\" | time: \"2pm\" | duration: \"1 hour\"]\n\nOther Calendar Actions:\n[SERVICE_ACTION: CALENDAR | action: DELETE_EVENT | title: \"meeting name\"]\n[SERVICE_ACTION: CALENDAR | action: UPDATE_EVENT | title: \"meeting\" | new_time: \"3pm\"]\n[SERVICE_ACTION: CALENDAR | action: FIND_FREE_TIME | duration: \"2\"]\n\nCRITICAL EXAMPLES:\n\nUser: \"what is for today\"\nResponse: \n[SERVICE_ACTION: CALENDAR | action: VIEW_EVENTS | range: \"today\"]\n\nUser: \"?\"\nResponse:\n[SERVICE_ACTION: CALENDAR | action: VIEW_EVENTS | range: \"today\"]\n\nUser: \"what"
  ++ apoStr ++
  "s on my calendar\"\nResponse:\n[SERVICE_ACTION: CALENDAR | action: VIEW_EVENTS | range: \"today\"]\n\nUser: \"schedule meeting tomorrow 2pm\"\nResponse: I"
  ++ apoStr ++
  "ll schedule that meeting for you.\n[SERVICE_ACTION: CALENDAR | action: CREATE_EVENT | title: \"Meeting\" | date: \"tomorrow\" | time: \"2pm\" | duration: \"1 hour\"]\n\nRespond with the appropriate action:"

/-- The fixed rules block between the service list and the context. -/
def promptRules : String :=
  "\n\nCRITICAL RULES:\n1. ALWAYS generate a SERVICE_ACTION when user asks about calendar/schedule/events\n2. For questions like \"what is for today\", \"what"
  ++ apoStr ++
  "s on my calendar\", \"?\" - IMMEDIATELY generate VIEW_EVENTS action\n3. NEVER just acknowledge without action - ALWAYS execute immediately\n4. Do NOT wait for confirmation - execute immediately\n5. Your response should be brief - let the action provide the details\n\n"

/-- `_build_enhanced_prompt`: the current date and time are inputs of the
model (the source reads the clock; the rendered text depends on them only
through these two strings). -/
def buildEnhancedPrompt (currentDate currentTime : String) (userMessage : String)
    (context : String) (services : List String) : String :=
  "You are an advanced Google Services Assistant with REAL API access.\nToday is "
  ++ currentDate ++ " at " ++ currentTime
  ++ ".\n\nAvailable services with FULL access: " ++ serviceListOf services
  ++ promptRules
  ++ context
  ++ "\n\nUser says: \"" ++ userMessage
  ++ promptTail

/-! ## Action enrichment (`_enhance_actions`) -/

/-- Python `not action["params"].get(k)`: the parameter counts as unset
when missing or empty. -/
def paramUnset (params : List (String × String)) (k : String) : Bool :=
  ((lookupKV k params).getD "") = ""

/-- The calendar creation verbs that receive smart defaults. -/
def calendarCreateActions : List String := ["CREATE_EVENT", "CREATE_RECURRING", "BLOCK_TIME"]

/-- Smart duration default keyed on the lower-cased utterance. -/
def smartDuration (messageLower : String) : String :=
  if ["standup", "daily", "sync"].any (fun w => strContains messageLower w) then "30 minutes"
  else if strContains messageLower "lunch" then "1 hour"
  else if strContains messageLower "interview" then "1 hour"
  else if strContains messageLower "call" then "30 minutes"
  else "1 hour"

/-- Smart title default keyed on the lower-cased utterance; `none` when
no keyword matches (the source then leaves the title unset). -/
def smartTitle (messageLower : String) : Option String :=
  if strContains messageLower "meeting" then some "Meeting"
  else if strContains messageLower "appointment" then some "Appointment"
  else if strContains messageLower "call" then some "Call"
  else if strContains messageLower "interview" then some "Interview"
  else none

/-- Enrichment of one action: the source nests one test for the calendar
service inside the loop and one for the creation verbs. -/
def enhanceAction (messageLower : String) (a : ActionReq) : ActionReq :=
  if a.service = "calendar" then
    if a.action ∈ calendarCreateActions then
      let p1 :=
        if paramUnset a.params "duration" then
          insertKV "duration" (smartDuration messageLower) a.params
        else a.params
      let p2 :=
        if paramUnset p1 "title" then
          match smartTitle messageLower with
          | some t => insertKV "title" t p1
          | none => p1
        else p1
      { a with params := p2 }
    else a
  else a

/-- `_enhance_actions` over the whole action list. -/
def enhanceActions (actions : List ActionReq) (userMessage : String) : List ActionReq :=
  actions.map (enhanceAction (pyLower userMessage))

/-! ## The interaction state machine (`bot.py` state handlers)

Each handler is a pure function of the (raw) reply text, the relevant
stored session data and an `Except`-valued dispatch oracle standing for
the awaited service call.  `Except.error` models an exception raised by
the dispatched call; a handler wrapped in `try/except` turns it into a
caught outcome, a handler without such a wrapper propagates it (its
result type is itself `Except`). -/

/-- The FSM states relevant to the modelled handlers. -/
inductive BotState where
  | idle
  | selecting_email
  | composing_email
  | selecting_event
  | selecting_file
  | selecting_contact
  | selecting_task
  | confirming_action
deriving Repr, DecidableEq

/-- Cancellation words of the email-selection handler. -/
def cancelWordsEmail : List String := ["cancel", "stop", "nevermind", "back", "exit"]

/-- Cancellation words of the event/file/contact/task selection handlers. -/
def cancelWordsShort : List String := ["cancel", "stop", "back"]

/-- Confirmation words accepted when exactly one email is listed. -/
def confirmWordsSingle : List String :=
  ["yes", "y", "ok", "okay", "sure", "confirm",
   "delete", "delete it", "do it", "go", "proceed",
   "1", "one", "first", "this one", "that one"]

/-- The number-word table, in source (insertion) order. -/
def numberWords : List (String × Nat) :=
  [("one", 1), ("first", 1), ("two", 2), ("second", 2),
   ("three", 3), ("third", 3), ("four", 4), ("fourth", 4),
   ("five", 5), ("fifth", 5), ("six", 6), ("sixth", 6),
   ("seven", 7), ("seventh", 7), ("eight", 8), ("eighth", 8),
   ("nine", 9), ("ninth", 9), ("ten", 10), ("tenth", 10)]

/-- A stored email search result; only the `id` field matters to the
selection handler, and the source tolerates a missing id. -/
structure Email where
  id : Option String
deriving Repr, DecidableEq

/-- Choice resolution of the email-selection handler, on the trimmed
lower-cased text: single-candidate confirmation words first, then number
words, then the first digit run. -/
def resolveEmailChoice (text : String) (n : Nat) : Option Nat :=
  let c0 : Option Nat :=
    if n = 1 && confirmWordsSingle.any (fun w => strContains text w || text == w) then some 1
    else none
  match c0 with
  | some c => some c
  | none =>
    match numberWords.find? (fun p => strContains text p.1) with
    | some p => some p.2
    | none => firstNumber text.data

/-- Python `if choice and 1 <= choice <= n`. -/
def choiceInRange (choice : Option Nat) (n : Nat) : Bool :=
  match choice with
  | some c => 1 ≤ c && c ≤ n
  | none => false

/-- What the email-selection handler did with the reply. -/
inductive EmailSelOutcome where
  | cancelled
  | serviceUnavailable
  | sessionExpired
  | missingId
  | replySetup (idx : Nat)
  | dispatched (idx : Nat)
  | unknownAction (idx : Nat)
  | repromptSingle
  | repromptRange (n : Nat)
  | errorCaught
deriving Repr, DecidableEq

/-- Result of one email-selection turn: the outcome, the FSM state after
the handler returns, and whether the stored search results were popped. -/
structure EmailSelResult where
  outcome : EmailSelOutcome
  state : BotState
  resultsPopped : Bool
deriving Repr, DecidableEq

/-- The actions of the selection handler that call into the Gmail
service (and may therefore raise). -/
def emailDispatchActions : List String := ["delete", "read", "mark_read", "mark_unread"]

/-- `handle_email_selection`.  The whole body runs inside `try/except`,
so a raising dispatch yields `errorCaught` with the state cleared. -/
def handleEmailSelection (rawText : String) (gmailAvailable : Bool)
    (action : String) (emails : List Email)
    (dispatch : Except String Unit) : EmailSelResult :=
  let text := pyLower (pyStrip rawText)
  if cancelWordsEmail.any (fun w => strContains text w) then
    ⟨.cancelled, .idle, false⟩
  else if !gmailAvailable then
    ⟨.serviceUnavailable, .idle, false⟩
  else if emails.isEmpty then
    ⟨.sessionExpired, .idle, false⟩
  else
    let choice := resolveEmailChoice text emails.length
    if choiceInRange choice emails.length then
      let c := choice.getD 0
      match (emails.getD (c - 1) ⟨none⟩).id with
      | none => ⟨.missingId, .idle, false⟩
      | some _ =>
        if action = "reply" then
          ⟨.replySetup c, .composing_email, false⟩
        else if emailDispatchActions.contains action then
          match dispatch with
          | .error _ => ⟨.errorCaught, .idle, false⟩
          | .ok _ => ⟨.dispatched c, .idle, true⟩
        else
          ⟨.unknownAction c, .idle, true⟩
    else
      if emails.length = 1 then ⟨.repromptSingle, .selecting_email, false⟩
      else ⟨.repromptRange emails.length, .selecting_email, false⟩

/-- A stored calendar event (`id` and `summary` are the fields the
selection handler reads). -/
structure EventItem where
  id : String
  summary : String
deriving Repr, DecidableEq

/-- What a generic (event/file/contact/task) selection handler did. -/
inductive ListSelOutcome where
  | cancelled
  | serviceUnavailable
  | noItems
  | dispatched (idx : Nat) (ok : Bool)
  | noDispatchMsg (idx : Nat)
  | unknownAction
  | reprompt (n : Nat)
  | errorCaught
deriving Repr, DecidableEq

/-- Result of one selection turn of the non-email handlers. -/
structure ListSelResult where
  outcome : ListSelOutcome
  state : BotState
  resultsPopped : Bool
deriving Repr, DecidableEq

/-- `handle_event_selection`: cancellation words `cancel`/`stop`/`back`,
digit-only choice resolution, actions `delete` and `update` dispatched
through the calendar service, anything else an unknown action.  The body
runs inside `try/except`. -/
def handleEventSelection (rawText : String) (calendarAvailable : Bool)
    (action : Option String) (events : List EventItem)
    (dispatch : Except String Bool) : ListSelResult :=
  let text := pyLower (pyStrip rawText)
  if cancelWordsShort.any (fun w => strContains text w) then
    ⟨.cancelled, .idle, false⟩
  else if !calendarAvailable then
    ⟨.serviceUnavailable, .idle, false⟩
  else if events.isEmpty then
    ⟨.noItems, .idle, false⟩
  else
    let choice := firstNumber text.data
    if choiceInRange choice events.length then
      let c := choice.getD 0
      match action with
      | some "delete" =>
        match dispatch with
        | .error _ => ⟨.errorCaught, .idle, false⟩
        | .ok ok => ⟨.dispatched c ok, .idle, true⟩
      | some "update" =>
        match dispatch with
        | .error _ => ⟨.errorCaught, .idle, false⟩
        | .ok ok => ⟨.dispatched c ok, .idle, true⟩
      | _ => ⟨.unknownAction, .idle, true⟩
    else
      ⟨.reprompt events.length, .selecting_event, false⟩

/-- `handle_file_selection`: same skeleton over the drive service with
actions `delete`, `share` and `download`. -/
def handleFileSelection (rawText : String) (driveAvailable : Bool)
    (action : Option String) (files : List String)
    (dispatch : Except String Bool) : ListSelResult :=
  let text := pyLower (pyStrip rawText)
  if cancelWordsShort.any (fun w => strContains text w) then
    ⟨.cancelled, .idle, false⟩
  else if !driveAvailable then
    ⟨.serviceUnavailable, .idle, false⟩
  else if files.isEmpty then
    ⟨.noItems, .idle, false⟩
  else
    let choice := firstNumber text.data
    if choiceInRange choice files.length then
      let c := choice.getD 0
      match action with
      | some "delete" =>
        match dispatch with
        | .error _ => ⟨.errorCaught, .idle, false⟩
        | .ok ok => ⟨.dispatched c ok, .idle, true⟩
      | some "share" =>
        match dispatch with
        | .error _ => ⟨.errorCaught, .idle, false⟩
        | .ok ok => ⟨.dispatched c ok, .idle, true⟩
      | some "download" =>
        match dispatch with
        | .error _ => ⟨.errorCaught, .idle, false⟩
        | .ok ok => ⟨.dispatched c ok, .idle, true⟩
      | _ => ⟨.unknownAction, .idle, true⟩
    else
      ⟨.reprompt files.length, .selecting_file, false⟩

/-- `handle_contact_selection`: actions `delete` (dispatched) and
`update` (a fixed message, no dispatch); both pop the stored results and
clear the state. -/
def handleContactSelection (rawText : String) (contactsAvailable : Bool)
    (action : Option String) (contacts : List String)
    (dispatch : Except String Bool) : ListSelResult :=
  let text := pyLower (pyStrip rawText)
  if cancelWordsShort.any (fun w => strContains text w) then
    ⟨.cancelled, .idle, false⟩
  else if !contactsAvailable then
    ⟨.serviceUnavailable, .idle, false⟩
  else if contacts.isEmpty then
    ⟨.noItems, .idle, false⟩
  else
    let choice := firstNumber text.data
    if choiceInRange choice contacts.length then
      let c := choice.getD 0
      match action with
      | some "delete" =>
        match dispatch with
        | .error _ => ⟨.errorCaught, .idle, false⟩
        | .ok ok => ⟨.dispatched c ok, .idle, true⟩
      | some "update" => ⟨.noDispatchMsg c, .idle, true⟩
      | _ => ⟨.unknownAction, .idle, true⟩
    else
      ⟨.reprompt contacts.length, .selecting_contact, false⟩

/-- `handle_task_selection`: actions `complete` and `delete`. -/
def handleTaskSelection (rawText : String) (tasksAvailable : Bool)
    (action : Option String) (tasks : List String)
    (dispatch : Except String Bool) : ListSelResult :=
  let text := pyLower (pyStrip rawText)
  if cancelWordsShort.any (fun w => strContains text w) then
    ⟨.cancelled, .idle, false⟩
  else if !tasksAvailable then
    ⟨.serviceUnavailable, .idle, false⟩
  else if tasks.isEmpty then
    ⟨.noItems, .idle, false⟩
  else
    let choice := firstNumber text.data
    if choiceInRange choice tasks.length then
      let c := choice.getD 0
      match action with
      | some "complete" =>
        match dispatch with
        | .error _ => ⟨.errorCaught, .idle, false⟩
        | .ok ok => ⟨.dispatched c ok, .idle, true⟩
      | some "delete" =>
        match dispatch with
        | .error _ => ⟨.errorCaught, .idle, false⟩
        | .ok ok => ⟨.dispatched c ok, .idle, true⟩
      | _ => ⟨.unknownAction, .idle, true⟩
    else
      ⟨.reprompt tasks.length, .selecting_task, false⟩

/-- What the composition handler did. -/
inductive CompOutcome where
  | cancelled
  | sentReply
  | sentNew
deriving Repr, DecidableEq

/-- Result of one composition turn. -/
structure CompResult where
  outcome : CompOutcome
  state : BotState
deriving Repr, DecidableEq

/-- `handle_email_composition`.  The cancellation test is an exact match
of the lower-cased text against `cancel`/`stop` (no trimming, no
substring test).  There is no `try/except` around the body: an exception
raised while sending propagates out of the handler, so the result type is
`Except` and an `error` value means the state was left as
`composing_email` and no message reached the user. -/
def handleEmailComposition (rawText : String) (hasReplyTo : Bool)
    (dispatch : Except String Unit) : Except String CompResult :=
  if ["cancel", "stop"].contains (pyLower rawText) then
    .ok ⟨.cancelled, .idle⟩
  else
    match dispatch with
    | .error e => .error e
    | .ok _ => .ok ⟨if hasReplyTo then .sentReply else .sentNew, .idle⟩

/-- Affirmative word set of `handle_confirmation`. -/
def affirmWords : List String :=
  ["yes", "y", "confirm", "ok", "sure", "do it", "go ahead", "proceed"]

/-- Negative word set of `handle_confirmation`. -/
def negWords : List String := ["no", "n", "cancel", "stop", "nevermind"]

/-- The only `(service, action)` pairs the confirmation handler actually
executes on an affirmative reply. -/
def supportedConfirmPair (service action : String) : Bool :=
  (service == "calendar" && action == "create") ||
  (service == "contacts" && action == "create") ||
  (service == "drive" && action == "create_folder") ||
  (service == "tasks" && action == "create")

/-- What the confirmation handler did. -/
inductive ConfOutcome where
  | executed (ok : Bool)
  | affirmNoDispatch
  | cancelled
  | reprompt
deriving Repr, DecidableEq

/-- Result of one confirmation turn. -/
structure ConfResult where
  outcome : ConfOutcome
  state : BotState
deriving Repr, DecidableEq

/-- `handle_confirmation`: affirmative substring match first, then
negative, else a yes/no reprompt with the state kept.  On an affirmative
reply the embedded action is executed only when its service is enabled
and the pair is one of `supportedConfirmPair`; in every other affirmative
case the interaction is discarded with no dispatch.  No `try/except`: a
raising dispatch propagates with the state left as `confirming_action`. -/
def handleConfirmation (rawText : String) (serviceEnabled : Bool)
    (service action : String) (dispatch : Except String Bool) :
    Except String ConfResult :=
  let text := pyLower (pyStrip rawText)
  if affirmWords.any (fun w => strContains text w) then
    if serviceEnabled && supportedConfirmPair service action then
      match dispatch with
      | .error e => .error e
      | .ok ok => .ok ⟨.executed ok, .idle⟩
    else
      .ok ⟨.affirmNoDispatch, .idle⟩
  else if negWords.any (fun w => strContains text w) then
    .ok ⟨.cancelled, .idle⟩
  else
    .ok ⟨.reprompt, .confirming_action⟩

/-! ## Email deletion outcome (`perform_actual_delete`) -/

/-- Outcome of a remote API call as seen by the service layer:
a success flag and an error text (empty when absent). -/
structure ApiResult where
  success : Bool
  error : String
deriving Repr, DecidableEq

/-- The six exit points of `perform_actual_delete`. -/
inductive DeleteOutcome where
  | noId
  | alreadyDeletedOnCheck
  | cantAccess (err : String)
  | trashed
  | alreadyDeletedOnTrash
  | failedDelete (err : String)
deriving Repr, DecidableEq

/-- The success flag of each exit point. -/
def deleteIsSuccess : DeleteOutcome → Bool
  | .noId => false
  | .alreadyDeletedOnCheck => true
  | .cantAccess _ => false
  | .trashed => true
  | .alreadyDeletedOnTrash => true
  | .failedDelete _ => false

/-- The user-facing message of each exit point. -/
def deleteMessage : DeleteOutcome → String
  | .noId => "❌ No email ID provided"
  | .alreadyDeletedOnCheck => "✅ Email already deleted or not found"
  | .cantAccess err => "❌ Cannot access email: " ++ err
  | .trashed => "✅ **Email moved to trash successfully!**"
  | .alreadyDeletedOnTrash => "✅ Email already deleted"
  | .failedDelete err => "❌ Failed to delete: " ++ err

/-- `perform_actual_delete` as a function of the email id and the two
remote call results (the existence check, then the trash call).  A `404`
substring in either error text is mapped to a success outcome. -/
def performActualDelete (emailId : String) (checkResult trashResult : ApiResult) :
    DeleteOutcome :=
  if emailId = "" then .noId
  else if !checkResult.success then
    if strContains checkResult.error "404" then .alreadyDeletedOnCheck
    else .cantAccess checkResult.error
  else if trashResult.success then .trashed
  else if strContains trashResult.error "404" then .alreadyDeletedOnTrash
  else .failedDelete trashResult.error

/-! ## Machinery: well-formed replies assembled from text and tags

To state the parser claims without restating the parser, a model reply is
assembled from interleaved free-text segments and rendered tags, exactly
in the tag syntax the prompt documents, and the scan of such a reply is
computed in closed form. -/

/-- Render one tag in the documented syntax
`[SERVICE_ACTION: NAME |body]`. -/
def renderTagChars (svc body : List Char) : List Char :=
  tagLit ++ ' ' :: svc ++ ' ' :: '|' :: body ++ [']']

/-- One segment-plus-tag piece of an assembled reply. -/
structure TagPart where
  seg : String
  svc : String
  body : String
deriving Repr, DecidableEq

/-- A reply: each part contributes its free text then its tag; `last` is
the trailing free text. -/
def flattenParts : List TagPart → String → List Char
  | [], last => last.data
  | p :: rest, last => p.seg.data ++ renderTagChars p.svc.data p.body.data ++ flattenParts rest last

/-- Side conditions making a part scan as one tag: the free text carries
no opening bracket, the service name is a non-empty run of capitals, the
body is non-empty and closes at the final bracket. -/
def WellFormedPart (p : TagPart) : Prop :=
  (∀ c ∈ p.seg.data, c ≠ '[') ∧
  p.svc.data ≠ [] ∧ (∀ c ∈ p.svc.data, isUpperAZ c = true) ∧
  p.body.data ≠ [] ∧ (∀ c ∈ p.body.data, c ≠ ']')

/-- The free text of an assembled reply, with the tags removed. -/
def segsText : List TagPart → String → List Char
  | [], last => last.data
  | p :: rest, last => p.seg.data ++ segsText rest last

/-- A tag whose `action` key is wrapped in single quotes, used to probe
key trimming. -/
def quotedKeyTag : String :=
  "[SERVICE_ACTION: CALENDAR | " ++ apoStr ++ "action" ++ apoStr ++ ": VIEW]"

/-! ## Helper lemmas -/

theorem dropLiteral_length {ps cs r : List Char} (h : dropLiteral ps cs = some r) :
    r.length + ps.length = cs.length := by
  induction ps generalizing cs with
  | nil => cases cs <;> simp [dropLiteral] at h <;> simp [h]
  | cons p ps ih =>
    cases cs with
    | nil => simp [dropLiteral] at h
    | cons c cs =>
      simp only [dropLiteral] at h
      split at h
      · have := ih h
        simp [List.length_cons]
        omega
      · exact absurd h (by simp)

theorem dropLiteral_self (ps cs : List Char) : dropLiteral ps (ps ++ cs) = some cs := by
  induction ps with
  | nil => rfl
  | cons p ps ih => simp [dropLiteral, ih]

theorem length_dropWhile_le' (p : Char → Bool) (l : List Char) :
    (l.dropWhile p).length ≤ l.length := by
  induction l with
  | nil => simp [List.dropWhile]
  | cons c cs ih =>
    simp only [List.dropWhile]
    split
    · exact Nat.le_succ_of_le ih
    · exact Nat.le_refl _

theorem matchTag_length {cs : List Char} {s b : String} {rem : List Char}
    (h : matchTag cs = some (s, b, rem)) : rem.length < cs.length := by
  unfold matchTag at h
  split at h
  · exact absurd h (by simp)
  · rename_i r1 h1
    have hr1 : r1.length + tagLit.length = cs.length := dropLiteral_length h1
    have hlit : 0 < tagLit.length := by decide
    split at h
    · exact absurd h (by simp)
    · split at h
      · exact absurd h (by simp)
      · rename_i r4 h4
        split at h
        · exact absurd h (by simp)
        · split at h
          · exact absurd h (by simp)
          · rename_i r5 h5
            simp only [Option.some.injEq, Prod.mk.injEq] at h
            obtain ⟨-, -, hrem⟩ := h
            subst hrem
            have h2 : (r1.dropWhile isSpaceChar).length ≤ r1.length :=
              length_dropWhile_le' _ _
            have h3 : ((r1.dropWhile isSpaceChar).dropWhile isUpperAZ).length ≤
                (r1.dropWhile isSpaceChar).length := length_dropWhile_le' _ _
            have h3' : (((r1.dropWhile isSpaceChar).dropWhile isUpperAZ).dropWhile
                isSpaceChar).length ≤ ((r1.dropWhile isSpaceChar).dropWhile isUpperAZ).length :=
              length_dropWhile_le' _ _
            have h4' : r4.length + 1 = (((r1.dropWhile isSpaceChar).dropWhile
                isUpperAZ).dropWhile isSpaceChar).length := by
              have := dropLiteral_length h4
              simpa using this
            have h6 : (r4.dropWhile fun c => decide (c ≠ ']')).length ≤ r4.length :=
              length_dropWhile_le' _ _
            have h7 : r5.length + 1 = (r4.dropWhile fun c => decide (c ≠ ']')).length := by
              have := dropLiteral_length h5
              simpa using this
            omega

theorem scanTagsFuel_congr (f1 : Nat) : ∀ (f2 : Nat) (cs : List Char),
    cs.length ≤ f1 → cs.length ≤ f2 → scanTagsFuel f1 cs = scanTagsFuel f2 cs := by
  induction f1 with
  | zero =>
    intro f2 cs h1 _
    have : cs = [] := List.length_eq_zero.mp (Nat.le_zero.mp h1)
    subst this
    cases f2 <;> rfl
  | succ f1 ih =>
    intro f2 cs h1 h2
    cases cs with
    | nil => cases f2 <;> rfl
    | cons c rest =>
      cases f2 with
      | zero => simp at h2
      | succ f2 =>
        simp only [scanTagsFuel]
        cases hm : matchTag (c :: rest) with
        | some t =>
          obtain ⟨s, b, rem⟩ := t
          have hlt : rem.length < (c :: rest).length := matchTag_length hm
          simp only [List.length_cons] at h1 h2 hlt
          dsimp only
          rw [ih f2 rem (by omega) (by omega)]
        | none =>
          simp only [List.length_cons] at h1 h2
          dsimp only
          rw [ih f2 rest (by omega) (by omega)]

theorem scanTagsFuel_eq_scanTags {f : Nat} {cs : List Char} (h : cs.length ≤ f) :
    scanTagsFuel f cs = scanTags cs :=
  scanTagsFuel_congr f cs.length cs h (Nat.le_refl _)

theorem takeWhile_append_stop (p : Char → Bool) (l1 : List Char) (d : Char) (l2 : List Char)
    (h1 : ∀ c ∈ l1, p c = true) (hd : p d = false) :
    (l1 ++ d :: l2).takeWhile p = l1 := by
  induction l1 with
  | nil =>
    rw [List.nil_append, List.takeWhile_cons_of_neg]
    simp [hd]
  | cons c cs ih =>
    have hc : p c = true := h1 c (by simp)
    rw [List.cons_append, List.takeWhile_cons_of_pos hc,
      ih (fun c hc' => h1 c (by simp [hc']))]

theorem dropWhile_append_stop (p : Char → Bool) (l1 : List Char) (d : Char) (l2 : List Char)
    (h1 : ∀ c ∈ l1, p c = true) (hd : p d = false) :
    (l1 ++ d :: l2).dropWhile p = d :: l2 := by
  induction l1 with
  | nil =>
    rw [List.nil_append, List.dropWhile_cons_of_neg]
    simp [hd]
  | cons c cs ih =>
    have hc : p c = true := h1 c (by simp)
    rw [List.cons_append, List.dropWhile_cons_of_pos hc,
      ih (fun c hc' => h1 c (by simp [hc']))]

theorem isSpaceChar_of_upper {c : Char} (h : isUpperAZ c = true) : isSpaceChar c = false := by
  cases hc : isSpaceChar c
  · rfl
  · exfalso
    simp only [isSpaceChar, Bool.or_eq_true, decide_eq_true_eq] at hc
    rcases hc with ((((h' | h') | h') | h') | h') | h' <;> subst h' <;>
      exact absurd h (by decide)

theorem matchTag_renderTag (svc body rest : List Char)
    (hsvc : svc ≠ []) (hsvcu : ∀ c ∈ svc, isUpperAZ c = true)
    (hbody : body ≠ []) (hbodyc : ∀ c ∈ body, c ≠ ']') :
    matchTag (renderTagChars svc body ++ rest) =
      some (String.mk svc, String.mk body, rest) := by
  have hb' : ∀ c ∈ body, (fun c => decide (c ≠ ']')) c = true := by
    intro c hc
    simp [hbodyc c hc]
  have hdrop : dropLiteral tagLit (renderTagChars svc body ++ rest) =
      some (' ' :: (svc ++ ' ' :: '|' :: (body ++ ']' :: rest))) := by
    unfold renderTagChars
    simp only [List.append_assoc, List.cons_append, List.nil_append]
    rw [dropLiteral_self]
  have hr2 : (' ' :: (svc ++ ' ' :: '|' :: (body ++ ']' :: rest))).dropWhile isSpaceChar =
      svc ++ ' ' :: '|' :: (body ++ ']' :: rest) := by
    rw [List.dropWhile_cons_of_pos (by decide)]
    cases svc with
    | nil => exact absurd rfl hsvc
    | cons a as =>
      rw [List.cons_append, List.dropWhile_cons_of_neg]
      simp [isSpaceChar_of_upper (hsvcu a (by simp))]
  have htw : (svc ++ ' ' :: '|' :: (body ++ ']' :: rest)).takeWhile isUpperAZ = svc :=
    takeWhile_append_stop isUpperAZ svc ' ' ('|' :: (body ++ ']' :: rest)) hsvcu (by decide)
  have hdw : (svc ++ ' ' :: '|' :: (body ++ ']' :: rest)).dropWhile isUpperAZ =
      ' ' :: '|' :: (body ++ ']' :: rest) :=
    dropWhile_append_stop isUpperAZ svc ' ' ('|' :: (body ++ ']' :: rest)) hsvcu (by decide)
  have hsp : (' ' :: '|' :: (body ++ ']' :: rest)).dropWhile isSpaceChar =
      '|' :: (body ++ ']' :: rest) := by
    rw [List.dropWhile_cons_of_pos (by decide), List.dropWhile_cons_of_neg (by decide)]
  have hbtw : (body ++ ']' :: rest).takeWhile (fun c => decide (c ≠ ']')) = body :=
    takeWhile_append_stop _ body ']' rest hb' (by simp)
  have hbdw : (body ++ ']' :: rest).dropWhile (fun c => decide (c ≠ ']')) = ']' :: rest :=
    dropWhile_append_stop _ body ']' rest hb' (by simp)
  unfold matchTag
  rw [hdrop]
  dsimp only
  rw [hr2, htw, hdw, hsp]
  rw [if_neg (by simp [List.isEmpty_iff, hsvc])]
  rw [show dropLiteral ['|'] ('|' :: (body ++ ']' :: rest)) = some (body ++ ']' :: rest)
    from rfl]
  dsimp only
  rw [hbtw, hbdw]
  rw [if_neg (by simp [List.isEmpty_iff, hbody])]
  rw [show dropLiteral [']'] (']' :: rest) = some rest from rfl]

theorem matchTag_none_of_head {c : Char} (cs : List Char) (h : c ≠ '[') :
    matchTag (c :: cs) = none := by
  unfold matchTag
  rw [show tagLit = '[' :: "SERVICE_ACTION:".data from rfl]
  simp only [dropLiteral]
  rw [if_neg h]

theorem scanTagsFuel_cons_none (f : Nat) (c : Char) (rest : List Char)
    (h : matchTag (c :: rest) = none) :
    scanTagsFuel (f + 1) (c :: rest) =
      (c :: (scanTagsFuel f rest).1, (scanTagsFuel f rest).2) := by
  simp only [scanTagsFuel, h]

theorem scanTagsFuel_cons_some (f : Nat) (c : Char) (rest : List Char)
    (svc body : String) (rem : List Char)
    (h : matchTag (c :: rest) = some (svc, body, rem)) :
    scanTagsFuel (f + 1) (c :: rest) =
      ((scanTagsFuel f rem).1, (svc, body) :: (scanTagsFuel f rem).2) := by
  simp only [scanTagsFuel, h]

theorem scanTags_clean_segment (seg rest : List Char) (h : ∀ c ∈ seg, c ≠ '[') :
    scanTags (seg ++ rest) = (seg ++ (scanTags rest).1, (scanTags rest).2) := by
  induction seg with
  | nil => simp
  | cons c cs ih =>
    have hc : c ≠ '[' := h c (by simp)
    have ih' := ih (fun c hc' => h c (by simp [hc']))
    show scanTagsFuel ((c :: cs ++ rest)).length (c :: (cs ++ rest)) = _
    rw [show ((c :: cs ++ rest)).length = (cs ++ rest).length + 1 by simp]
    rw [scanTagsFuel_cons_none _ _ _ (matchTag_none_of_head _ hc)]
    show (c :: (scanTags (cs ++ rest)).1, (scanTags (cs ++ rest)).2) = _
    rw [ih']
    simp

theorem scanTags_tag_step (svc body rest : List Char)
    (hsvc : svc ≠ []) (hsvcu : ∀ c ∈ svc, isUpperAZ c = true)
    (hbody : body ≠ []) (hbodyc : ∀ c ∈ body, c ≠ ']') :
    scanTags (renderTagChars svc body ++ rest) =
      ((scanTags rest).1, (String.mk svc, String.mk body) :: (scanTags rest).2) := by
  have hm := matchTag_renderTag svc body rest hsvc hsvcu hbody hbodyc
  have hshape : renderTagChars svc body ++ rest =
      '[' :: ("SERVICE_ACTION:".data ++ ' ' :: svc ++ ' ' :: '|' :: body ++ (']' :: rest)) := by
    unfold renderTagChars
    rw [show tagLit = '[' :: "SERVICE_ACTION:".data from rfl]
    simp [List.append_assoc]
  rw [hshape] at hm
  unfold scanTags
  rw [hshape]
  rw [show ('[' :: ("SERVICE_ACTION:".data ++ ' ' :: svc ++ ' ' :: '|' :: body ++
      (']' :: rest))).length =
      ("SERVICE_ACTION:".data ++ ' ' :: svc ++ ' ' :: '|' :: body ++ (']' :: rest)).length + 1
    from rfl]
  rw [scanTagsFuel_cons_some _ _ _ _ _ _ hm]
  have hle : rest.length ≤
      ("SERVICE_ACTION:".data ++ ' ' :: svc ++ ' ' :: '|' :: body ++ (']' :: rest)).length := by
    simp [List.length_append]
    omega
  rw [scanTagsFuel_eq_scanTags hle]
  rfl

theorem scanTags_flattenParts (parts : List TagPart) (last : String)
    (h : ∀ p ∈ parts, WellFormedPart p) (hlast : ∀ c ∈ last.data, c ≠ '[') :
    scanTags (flattenParts parts last) =
      (segsText parts last, parts.map (fun p => (p.svc, p.body))) := by
  induction parts with
  | nil =>
    have := scanTags_clean_segment last.data [] hlast
    simpa [flattenParts, segsText, scanTags, scanTagsFuel] using this
  | cons p ps ih =>
    obtain ⟨hseg, hsvc, hsvcu, hbody, hbodyc⟩ := h p (by simp)
    have ih' := ih (fun q hq => h q (by simp [hq]))
    show scanTags (p.seg.data ++ renderTagChars p.svc.data p.body.data ++
      flattenParts ps last) = _
    rw [List.append_assoc]
    rw [scanTags_clean_segment _ _ hseg]
    rw [scanTags_tag_step _ _ _ hsvc hsvcu hbody hbodyc]
    rw [ih']
    simp [segsText]

theorem listContainsSub_append_right (pat xs ys : List Char)
    (h : listContainsSub pat ys = true) : listContainsSub pat (xs ++ ys) = true := by
  induction xs with
  | nil => simpa using h
  | cons x xs ih => simp [listContainsSub, ih]

theorem strContains_append_right (a b pat : String) (h : strContains b pat = true) :
    strContains (a ++ b) pat = true := by
  unfold strContains at h ⊢
  rw [String.data_append]
  exact listContainsSub_append_right _ _ _ h

theorem lookupKV_insertKV (k k' v : String) (l : List (String × String)) :
    lookupKV k (insertKV k' v l) = if k = k' then some v else lookupKV k l := by
  induction l with
  | nil =>
    by_cases h : k = k' <;> simp [insertKV, lookupKV, h, eq_comm]
  | cons p rest ih =>
    obtain ⟨a, b⟩ := p
    by_cases h1 : a = k'
    · subst h1
      by_cases h2 : k = a <;> simp [insertKV, lookupKV, h2, eq_comm, Ne.symm]
    · by_cases h2 : a = k
      · subst h2
        simp [insertKV, lookupKV, h1]
      · simp [insertKV, lookupKV, h1, h2, ih]

theorem parseParamStep_values_nonempty (acc : List (String × String)) (part : List Char)
    (hacc : ∀ k v, lookupKV k acc = some v → v ≠ "") :
    ∀ k v, lookupKV k (parseParamStep acc part) = some v → v ≠ "" := by
  intro k v h
  unfold parseParamStep at h
  split at h
  · exact hacc k v h
  · dsimp only at h
    split at h
    · rename_i hne
      rw [lookupKV_insertKV] at h
      split at h
      · simp only [Option.some.injEq] at h
        subst h
        simpa using (Bool.and_eq_true _ _ |>.mp hne).2
      · exact hacc k v h
    · exact hacc k v h

theorem foldl_parseParamStep_values_nonempty (parts : List (List Char)) :
    ∀ (acc : List (String × String)), (∀ k v, lookupKV k acc = some v → v ≠ "") →
    ∀ k v, lookupKV k (parts.foldl parseParamStep acc) = some v → v ≠ "" := by
  induction parts with
  | nil => intro acc hacc; exact hacc
  | cons part rest ih =>
    intro acc hacc
    exact ih _ (parseParamStep_values_nonempty acc part hacc)

theorem parseParams_values_nonempty (body : String) :
    ∀ k v, lookupKV k (parseParams body) = some v → v ≠ "" := by
  unfold parseParams
  exact foldl_parseParamStep_values_nonempty _ [] (by intro k v h; simp [lookupKV] at h)

/-! ## Claim theorems -/

theorem choiceInRange_true {choice : Option Nat} {n : Nat} (h : choiceInRange choice n = true) :
    1 ≤ choice.getD 0 ∧ choice.getD 0 ≤ n := by
  cases choice with
  | none => simp [choiceInRange] at h
  | some c => simpa [choiceInRange] using h

/-- Claim C1: for a pending selection over a candidate list of length N
(email or event selection), the pending action is dispatched only when
the reply resolves to a 1-based index i with 1 <= i <= N; every
non-cancelling reply that is unparseable, zero, or out of range leaves
the selection state and the stored candidate list unchanged and yields a
corrective prompt carrying the valid range (the single-candidate prompt
when N = 1, the numbered range otherwise), and the total model cannot
crash. -/
theorem selection_dispatch_in_range_and_bad_reply_preserves
    (text : String) (avail : Bool) (action : String) (oaction : Option String)
    (emails : List Email) (events : List EventItem)
    (d : Except String Unit) (d2 : Except String Bool) :
    (∀ i, (handleEmailSelection text avail action emails d).outcome =
        EmailSelOutcome.dispatched i → 1 ≤ i ∧ i ≤ emails.length) ∧
    (∀ i ok, (handleEventSelection text avail oaction events d2).outcome =
        ListSelOutcome.dispatched i ok → 1 ≤ i ∧ i ≤ events.length) ∧
    (cancelWordsEmail.any (fun w => strContains (pyLower (pyStrip text)) w) = false →
      avail = true → emails ≠ [] →
      choiceInRange (resolveEmailChoice (pyLower (pyStrip text)) emails.length)
        emails.length = false →
      (handleEmailSelection text avail action emails d).state = .selecting_email ∧
      (handleEmailSelection text avail action emails d).resultsPopped = false ∧
      ((handleEmailSelection text avail action emails d).outcome = .repromptSingle ∧
          emails.length = 1 ∨
        (handleEmailSelection text avail action emails d).outcome =
          .repromptRange emails.length)) ∧
    (cancelWordsShort.any (fun w => strContains (pyLower (pyStrip text)) w) = false →
      avail = true → events ≠ [] →
      choiceInRange (firstNumber (pyLower (pyStrip text)).data) events.length = false →
      (handleEventSelection text avail oaction events d2).state = .selecting_event ∧
      (handleEventSelection text avail oaction events d2).resultsPopped = false ∧
      (handleEventSelection text avail oaction events d2).outcome =
        .reprompt events.length) := by
  refine ⟨?_, ?_, ?_, ?_⟩
  · intro i hi
    simp only [handleEmailSelection] at hi
    split at hi
    · simp at hi
    · split at hi
      · simp at hi
      · split at hi
        · simp at hi
        · split at hi
          · rename_i hrange
            split at hi
            · simp at hi
            · split at hi
              · simp at hi
              · split at hi
                · split at hi
                  · simp at hi
                  · have := choiceInRange_true hrange
                    simp at hi
                    omega
                · simp at hi
          · split at hi <;> simp at hi
  · intro i ok hi
    simp only [handleEventSelection] at hi
    split at hi
    · simp at hi
    · split at hi
      · simp at hi
      · split at hi
        · simp at hi
        · split at hi
          · rename_i hrange
            split at hi
            · split at hi
              · simp at hi
              · have := choiceInRange_true hrange
                simp at hi
                omega
            · split at hi
              · simp at hi
              · have := choiceInRange_true hrange
                simp at hi
                omega
            · simp at hi
          · simp at hi
  · intro hc hav hne hbad
    subst hav
    have hne' : emails.isEmpty = false := by simpa [List.isEmpty_iff] using hne
    simp only [handleEmailSelection, hc, hne', hbad, Bool.false_eq_true, if_false,
      Bool.not_true]
    split
    · rename_i h1
      simp [h1]
    · simp
  · intro hc hav hne hbad
    subst hav
    have hne' : events.isEmpty = false := by simpa [List.isEmpty_iff] using hne
    simp [handleEventSelection, hc, hne', hbad]

/-- Claim C2 (amended): the cancellation vocabulary differs by state.
The words of each handler cancel in that handler: email selection
handles cancel/stop/nevermind/back/exit as substrings; event, file,
contact and task selection handle cancel/stop/back; composition cancels
only on a message exactly equal to cancel or stop; confirmation cancels
on the negative words no/n/cancel/stop/nevermind.  In each case the
session returns to IDLE with a cancellation acknowledgment and no
dispatch.  A composing reply that merely contains a cancellation word is
sent as the email body instead. -/
theorem cancellation_words_by_state :
    (∀ w ∈ cancelWordsEmail, ∀ g a emails d,
      handleEmailSelection w g a emails d = ⟨.cancelled, .idle, false⟩) ∧
    (∀ w ∈ cancelWordsShort,
      (∀ g a events d, handleEventSelection w g a events d = ⟨.cancelled, .idle, false⟩) ∧
      (∀ g a files d, handleFileSelection w g a files d = ⟨.cancelled, .idle, false⟩) ∧
      (∀ g a contacts d, handleContactSelection w g a contacts d = ⟨.cancelled, .idle, false⟩) ∧
      (∀ g a tasks d, handleTaskSelection w g a tasks d = ⟨.cancelled, .idle, false⟩)) ∧
    (∀ w ∈ (["cancel", "stop"] : List String), ∀ h d,
      handleEmailComposition w h d = .ok ⟨.cancelled, .idle⟩) ∧
    (∀ w ∈ negWords, ∀ en s a d, handleConfirmation w en s a d = .ok ⟨.cancelled, .idle⟩) ∧
    (∀ h, handleEmailComposition "please cancel" h (.ok ()) =
      .ok ⟨if h then .sentReply else .sentNew, .idle⟩) := by
  refine ⟨?_, ?_, ?_, ?_, ?_⟩
  · intro w hw
    simp only [cancelWordsEmail, List.mem_cons, List.mem_singleton] at hw
    rcases hw with rfl | rfl | rfl | rfl | rfl | h
    · intro g a emails d; rfl
    · intro g a emails d; rfl
    · intro g a emails d; rfl
    · intro g a emails d; rfl
    · intro g a emails d; rfl
    · simp at h
  · intro w hw
    simp only [cancelWordsShort, List.mem_cons, List.mem_singleton] at hw
    rcases hw with rfl | rfl | rfl | h
    · exact ⟨fun _ _ _ _ => rfl, fun _ _ _ _ => rfl, fun _ _ _ _ => rfl, fun _ _ _ _ => rfl⟩
    · exact ⟨fun _ _ _ _ => rfl, fun _ _ _ _ => rfl, fun _ _ _ _ => rfl, fun _ _ _ _ => rfl⟩
    · exact ⟨fun _ _ _ _ => rfl, fun _ _ _ _ => rfl, fun _ _ _ _ => rfl, fun _ _ _ _ => rfl⟩
    · simp at h
  · intro w hw
    simp only [List.mem_cons, List.mem_singleton] at hw
    rcases hw with rfl | rfl | h
    · intro h d; rfl
    · intro h d; rfl
    · simp at h
  · intro w hw
    simp only [negWords, List.mem_cons, List.mem_singleton] at hw
    rcases hw with rfl | rfl | rfl | rfl | rfl | h
    · intro en s a d; rfl
    · intro en s a d; rfl
    · intro en s a d; rfl
    · intro en s a d; rfl
    · intro en s a d; rfl
    · simp at h
  · intro h
    cases h <;> rfl

/-- Claim C2 counterexample: the reply nevermind in the event-selection
state does not cancel; it reprompts and keeps the state, and in the
composing state it is sent as the message body. -/
theorem nevermind_not_cancellation_in_event_selection :
    handleEventSelection "nevermind" true (some "delete") [⟨"e1", "Team meeting"⟩]
      (.ok true) = ⟨.reprompt 1, .selecting_event, false⟩ ∧
    handleEmailComposition "nevermind" false (.ok ()) = .ok ⟨.sentNew, .idle⟩ := by
  exact ⟨rfl, rfl⟩

/-- Claim C3 (amended): the five selection handlers catch any exception
raised during dispatch, report a generic failure and clear the state to
IDLE (an error-valued dispatch either yields the caught outcome with the
state cleared, or the dispatch was never consulted and the result does
not depend on it).  The composition and confirmation handlers have no
such boundary: when their dispatch raises, the exception propagates and
the state is left pending. -/
theorem dispatch_exception_boundaries
    (text : String) (avail : Bool) (action : String) (oaction : Option String)
    (emails : List Email) (events : List EventItem) (files contacts tasks : List String)
    (hasReplyTo : Bool) (serviceEnabled : Bool) (svc act : String) (e : String) :
    (handleEmailSelection text avail action emails (.error e) =
        ⟨.errorCaught, .idle, false⟩ ∨
      ∀ d, handleEmailSelection text avail action emails d =
        handleEmailSelection text avail action emails (.ok ())) ∧
    (handleEventSelection text avail oaction events (.error e) =
        ⟨.errorCaught, .idle, false⟩ ∨
      ∀ d, handleEventSelection text avail oaction events d =
        handleEventSelection text avail oaction events (.ok true)) ∧
    (handleFileSelection text avail oaction files (.error e) =
        ⟨.errorCaught, .idle, false⟩ ∨
      ∀ d, handleFileSelection text avail oaction files d =
        handleFileSelection text avail oaction files (.ok true)) ∧
    (handleContactSelection text avail oaction contacts (.error e) =
        ⟨.errorCaught, .idle, false⟩ ∨
      ∀ d, handleContactSelection text avail oaction contacts d =
        handleContactSelection text avail oaction contacts (.ok true)) ∧
    (handleTaskSelection text avail oaction tasks (.error e) =
        ⟨.errorCaught, .idle, false⟩ ∨
      ∀ d, handleTaskSelection text avail oaction tasks d =
        handleTaskSelection text avail oaction tasks (.ok true)) ∧
    (["cancel", "stop"].contains (pyLower text) = false →
      handleEmailComposition text hasReplyTo (.error e) = .error e) ∧
    (affirmWords.any (fun w => strContains (pyLower (pyStrip text)) w) = true →
      (serviceEnabled && supportedConfirmPair svc act) = true →
      handleConfirmation text serviceEnabled svc act (.error e) = .error e) := by
  refine ⟨?_, ?_, ?_, ?_, ?_, ?_, ?_⟩
  · simp only [handleEmailSelection]
    split
    · exact Or.inr fun d => rfl
    · split
      · exact Or.inr fun d => rfl
      · split
        · exact Or.inr fun d => rfl
        · split
          · split
            · exact Or.inr fun d => rfl
            · split
              · exact Or.inr fun d => rfl
              · split
                · exact Or.inl rfl
                · exact Or.inr fun d => rfl
          · split
            · exact Or.inr fun d => rfl
            · exact Or.inr fun d => rfl
  · simp only [handleEventSelection]
    split
    · exact Or.inr fun d => rfl
    · split
      · exact Or.inr fun d => rfl
      · split
        · exact Or.inr fun d => rfl
        · split
          · split
            · exact Or.inl rfl
            · exact Or.inl rfl
            · exact Or.inr fun d => rfl
          · exact Or.inr fun d => rfl
  · simp only [handleFileSelection]
    split
    · exact Or.inr fun d => rfl
    · split
      · exact Or.inr fun d => rfl
      · split
        · exact Or.inr fun d => rfl
        · split
          · split
            · exact Or.inl rfl
            · exact Or.inl rfl
            · exact Or.inl rfl
            · exact Or.inr fun d => rfl
          · exact Or.inr fun d => rfl
  · simp only [handleContactSelection]
    split
    · exact Or.inr fun d => rfl
    · split
      · exact Or.inr fun d => rfl
      · split
        · exact Or.inr fun d => rfl
        · split
          · split
            · exact Or.inl rfl
            · exact Or.inr fun d => rfl
            · exact Or.inr fun d => rfl
          · exact Or.inr fun d => rfl
  · simp only [handleTaskSelection]
    split
    · exact Or.inr fun d => rfl
    · split
      · exact Or.inr fun d => rfl
      · split
        · exact Or.inr fun d => rfl
        · split
          · split
            · exact Or.inl rfl
            · exact Or.inl rfl
            · exact Or.inr fun d => rfl
          · exact Or.inr fun d => rfl
  · intro hnc
    have h1 : pyLower text ≠ "cancel" := by intro h; rw [h] at hnc; simp at hnc
    have h2 : pyLower text ≠ "stop" := by intro h; rw [h] at hnc; simp at hnc
    simp [handleEmailComposition, h1, h2]
  · intro ha hp
    simp [handleConfirmation, ha, hp]

/-- Claim C3 counterexample: an exception raised while sending a reply in
the composition handler propagates out of the handler (the result is the
error value, not any caught outcome), so the state is not cleared and no
failure message is produced. -/
theorem composition_dispatch_exception_propagates :
    handleEmailComposition "Thanks, sounds good!" true (.error "boom") =
      .error "boom" ∧
    ∀ r : CompResult, (Except.error "boom" : Except String CompResult) ≠ .ok r := by
  exact ⟨rfl, fun r h => by cases h⟩

/-- Claim C4 failing input: the confirmation handler executes only four
(service, action) pairs, while the services store pairs such as
(calendar, delete_with_attendees), (contacts, delete) and
(tasks, delete_confirm); an affirmative reply to those confirmations
clears the state with no dispatch at all, contradicting the prompt the
code itself just issued.  The negative and reprompt paths behave as the
claim states. -/
theorem confirmation_yes_silently_drops_unsupported_action :
    handleConfirmation "yes" true "calendar" "delete_with_attendees" (.ok true) =
      .ok ⟨.affirmNoDispatch, .idle⟩ ∧
    handleConfirmation "yes" true "contacts" "delete" (.ok true) =
      .ok ⟨.affirmNoDispatch, .idle⟩ ∧
    handleConfirmation "yes" true "tasks" "delete_confirm" (.ok true) =
      .ok ⟨.affirmNoDispatch, .idle⟩ ∧
    supportedConfirmPair "calendar" "delete_with_attendees" = false ∧
    handleConfirmation "perhaps" true "contacts" "create" (.ok true) =
      .ok ⟨.reprompt, .confirming_action⟩ ∧
    handleConfirmation "no" true "contacts" "create" (.ok true) =
      .ok ⟨.cancelled, .idle⟩ := by
  exact ⟨rfl, rfl, rfl, rfl, rfl, rfl⟩

/-- Claim C8: with exactly one candidate, a reply containing a word of
the closed affirmative set resolves to index 1 and dispatches the
pending action on that single candidate; with any other list length the
bare affirmative reply yes resolves to no index at all (number words and
digits are then the only resolution paths) and merely reprompts. -/
theorem single_candidate_affirmative_resolution
    (text : String) (e : Email) (eid : String)
    (hc : cancelWordsEmail.any (fun w => strContains (pyLower (pyStrip text)) w) = false)
    (ha : confirmWordsSingle.any (fun w =>
      strContains (pyLower (pyStrip text)) w || pyLower (pyStrip text) == w) = true)
    (hid : e.id = some eid) :
    resolveEmailChoice (pyLower (pyStrip text)) 1 = some 1 ∧
    handleEmailSelection text true "delete" [e] (.ok ()) =
      ⟨.dispatched 1, .idle, true⟩ ∧
    (∀ n, n ≠ 1 → resolveEmailChoice "yes" n = none) ∧
    (∀ e1 e2 d a, handleEmailSelection "yes" true a [e1, e2] d =
      ⟨.repromptRange 2, .selecting_email, false⟩) := by
  have hres : resolveEmailChoice (pyLower (pyStrip text)) 1 = some 1 := by
    simp [resolveEmailChoice, ha]
  refine ⟨hres, ?_, ?_, ?_⟩
  · simp [handleEmailSelection, hc, hres, choiceInRange, hid]
    decide
  · intro n hn
    simp only [resolveEmailChoice]
    rw [if_neg (by simp [hn])]
    rfl
  · intro e1 e2 d a
    rfl

/-- Claim C10: deleting an email whose id no longer exists remotely is a
success outcome: a 404-bearing error from the existence check or from
the trash call maps to a success outcome whose message says already
deleted; a failure outcome arises only from a non-404 error of one of
the two calls. -/
theorem delete_404_is_success (emailId : String) (cr tr : ApiResult)
    (hid : emailId ≠ "") :
    (cr.success = false → strContains cr.error "404" = true →
      performActualDelete emailId cr tr = .alreadyDeletedOnCheck ∧
      deleteIsSuccess (performActualDelete emailId cr tr) = true ∧
      strContains (deleteMessage (performActualDelete emailId cr tr))
        "already deleted" = true) ∧
    (cr.success = true → tr.success = false → strContains tr.error "404" = true →
      performActualDelete emailId cr tr = .alreadyDeletedOnTrash ∧
      deleteIsSuccess (performActualDelete emailId cr tr) = true ∧
      strContains (deleteMessage (performActualDelete emailId cr tr))
        "already deleted" = true) ∧
    (deleteIsSuccess (performActualDelete emailId cr tr) = false →
      (cr.success = false ∧ strContains cr.error "404" = false) ∨
      (cr.success = true ∧ tr.success = false ∧ strContains tr.error "404" = false)) := by
  obtain ⟨cs, ce⟩ := cr
  obtain ⟨ts, te⟩ := tr
  refine ⟨?_, ?_, ?_⟩
  · rintro rfl h4
    have hpd : performActualDelete emailId ⟨false, ce⟩ ⟨ts, te⟩ = .alreadyDeletedOnCheck := by
      simp [performActualDelete, hid, h4]
    rw [hpd]
    exact ⟨rfl, rfl, by decide⟩
  · rintro rfl rfl h4
    have hpd : performActualDelete emailId ⟨true, ce⟩ ⟨false, te⟩ = .alreadyDeletedOnTrash := by
      simp [performActualDelete, hid, h4]
    rw [hpd]
    exact ⟨rfl, rfl, by decide⟩
  · intro hf
    simp only [performActualDelete] at hf
    rw [if_neg hid] at hf
    cases cs with
    | false =>
      left
      refine ⟨rfl, ?_⟩
      simp only [Bool.not_false, if_true] at hf
      by_cases h4 : strContains ce "404" = true
      · rw [if_pos h4] at hf
        simp [deleteIsSuccess] at hf
      · simpa using h4
    | true =>
      right
      simp only [Bool.not_true, Bool.false_eq_true, if_false] at hf
      cases ts with
      | true => simp [deleteIsSuccess] at hf
      | false =>
        refine ⟨rfl, rfl, ?_⟩
        rw [if_neg (by simp)] at hf
        by_cases h4 : strContains te "404" = true
        · rw [if_pos h4] at hf
          simp [deleteIsSuccess] at hf
        · simpa using h4

set_option maxRecDepth 200000 in
/-- Claim C7 counterexample: with only gmail enabled, the rendered prompt
still contains the calendar action-tag catalogue. -/
theorem prompt_advertises_calendar_to_gmail_only_config :
    strContains (buildEnhancedPrompt "Monday, January 05, 2026" "09:00 AM UTC"
      "show my unread emails" "" ["gmail"]) "[SERVICE_ACTION: CALENDAR" = true ∧
    ("calendar" ∈ (["gmail"] : List String)) = False := by
  constructor
  · decide
  · simp

set_option maxRecDepth 200000 in
/-- Claim C7 (amended): the rendered prompt depends on the enabled set
only through the service-list line, and its fixed instruction body
always advertises the calendar action tags and worked examples, for
every enabled-service subset including those without calendar. -/
theorem prompt_always_contains_calendar_actions
    (cd ct um ctx : String) (services : List String) :
    strContains (buildEnhancedPrompt cd ct um ctx services)
      "[SERVICE_ACTION: CALENDAR" = true ∧
    (∀ s1 s2, serviceListOf s1 = serviceListOf s2 →
      buildEnhancedPrompt cd ct um ctx s1 = buildEnhancedPrompt cd ct um ctx s2) := by
  constructor
  · unfold buildEnhancedPrompt
    exact strContains_append_right _ _ _ (by decide)
  · intro s1 s2 h
    unfold buildEnhancedPrompt
    rw [h]

theorem mem_parse_params_nonempty {resp : String} {svcs : List String} {a : ActionReq}
    (ha : a ∈ (parseAndValidateResponse resp svcs).2) :
    ∀ k v, lookupKV k a.params = some v → v ≠ "" := by
  unfold parseAndValidateResponse at ha
  dsimp only at ha
  rw [List.mem_filterMap] at ha
  obtain ⟨t, -, hv⟩ := ha
  unfold validateTag at hv
  split at hv
  · split at hv
    · simp only [Option.some.injEq] at hv
      subst hv
      exact parseParams_values_nonempty _
    · simp at hv
  · simp at hv

/-- Claim C9: enrichment is additive and pure: for every action parsed
from a model reply it preserves the service and action verb, never
overwrites any parameter the translator set, changes at most the
duration and title parameters and only when they were absent, and the
list enrichment is the elementwise map of the single-action function
(deterministic, no I/O in the model). -/
theorem enrichment_is_additive (resp msg : String) (svcs : List String) (a : ActionReq)
    (ha : a ∈ (parseAndValidateResponse resp svcs).2) :
    (enhanceAction (pyLower msg) a).service = a.service ∧
    (enhanceAction (pyLower msg) a).action = a.action ∧
    (∀ k v, lookupKV k a.params = some v →
      lookupKV k (enhanceAction (pyLower msg) a).params = some v) ∧
    (∀ k, lookupKV k (enhanceAction (pyLower msg) a).params ≠ lookupKV k a.params →
      (k = "duration" ∨ k = "title") ∧ lookupKV k a.params = none) ∧
    enhanceActions (parseAndValidateResponse resp svcs).2 msg =
      (parseAndValidateResponse resp svcs).2.map (enhanceAction (pyLower msg)) := by
  have hval := mem_parse_params_nonempty ha
  by_cases hsvc : a.service = "calendar"
  case neg =>
    have henh : enhanceAction (pyLower msg) a = a := by
      unfold enhanceAction
      rw [if_neg hsvc]
    refine ⟨by rw [henh], by rw [henh], ?_, ?_, rfl⟩
    · intro k v hkv
      rw [henh]
      exact hkv
    · intro k hk
      rw [henh] at hk
      exact absurd rfl hk
  case pos =>
    by_cases hact : a.action ∈ calendarCreateActions
    case neg =>
      have henh : enhanceAction (pyLower msg) a = a := by
        unfold enhanceAction
        rw [if_pos hsvc, if_neg hact]
      refine ⟨by rw [henh], by rw [henh], ?_, ?_, rfl⟩
      · intro k v hkv
        rw [henh]
        exact hkv
      · intro k hk
        rw [henh] at hk
        exact absurd rfl hk
    case pos =>
      set p1 := if paramUnset a.params "duration" = true then
          insertKV "duration" (smartDuration (pyLower msg)) a.params
        else a.params with hp1
      set p2 := if paramUnset p1 "title" = true then
          (match smartTitle (pyLower msg) with
           | some t => insertKV "title" t p1
           | none => p1)
        else p1 with hp2
      have henh : enhanceAction (pyLower msg) a = { a with params := p2 } := by
        unfold enhanceAction
        rw [if_pos hsvc, if_pos hact]
      have hl1keep : ∀ k v, lookupKV k a.params = some v → lookupKV k p1 = some v := by
        intro k v hkv
        have hv : v ≠ "" := hval k v hkv
        rw [hp1]
        by_cases hdur : paramUnset a.params "duration" = true
        · rw [if_pos hdur, lookupKV_insertKV]
          split
          · rename_i hk
            exfalso
            subst hk
            unfold paramUnset at hdur
            rw [hkv] at hdur
            simp at hdur
            exact hv hdur
          · exact hkv
        · rw [if_neg hdur]
          exact hkv
      have hl2keep : ∀ k v, lookupKV k p1 = some v → v ≠ "" → lookupKV k p2 = some v := by
        intro k v hkv hv
        rw [hp2]
        by_cases htit : paramUnset p1 "title" = true
        · rw [if_pos htit]
          cases hst : smartTitle (pyLower msg) with
          | none => exact hkv
          | some t =>
            rw [lookupKV_insertKV]
            split
            · rename_i hk
              exfalso
              subst hk
              unfold paramUnset at htit
              rw [hkv] at htit
              simp at htit
              exact hv htit
            · exact hkv
        · rw [if_neg htit]
          exact hkv
      have hother1 : ∀ k, k ≠ "duration" → lookupKV k p1 = lookupKV k a.params := by
        intro k hk
        rw [hp1]
        by_cases hdur : paramUnset a.params "duration" = true
        · rw [if_pos hdur, lookupKV_insertKV, if_neg hk]
        · rw [if_neg hdur]
      have hother2 : ∀ k, k ≠ "title" → lookupKV k p2 = lookupKV k p1 := by
        intro k hk
        rw [hp2]
        by_cases htit : paramUnset p1 "title" = true
        · rw [if_pos htit]
          cases smartTitle (pyLower msg) with
          | none => rfl
          | some t => rw [lookupKV_insertKV, if_neg hk]
        · rw [if_neg htit]
      have hunset : ∀ l k, (∀ v, lookupKV k l = some v → v ≠ "") →
          paramUnset l k = true → lookupKV k l = none := by
        intro l k hnv hu
        unfold paramUnset at hu
        cases hl : lookupKV k l with
        | none => rfl
        | some v =>
          exfalso
          rw [hl] at hu
          simp at hu
          exact (hnv v hl) hu
      refine ⟨by rw [henh], by rw [henh], ?_, ?_, rfl⟩
      · intro k v hkv
        rw [henh]
        exact hl2keep k v (hl1keep k v hkv) (hval k v hkv)
      · intro k hk
        rw [henh] at hk
        by_cases hkd : k = "duration"
        · subst hkd
          refine ⟨Or.inl rfl, ?_⟩
          have hd2 : lookupKV "duration" p2 = lookupKV "duration" p1 :=
            hother2 _ (by decide)
          rw [hd2] at hk
          by_cases hdur : paramUnset a.params "duration" = true
          · exact hunset a.params "duration" (fun v hv => hval _ v hv) hdur
          · exfalso
            apply hk
            rw [hp1, if_neg hdur]
        · by_cases hkt : k = "title"
          · subst hkt
            refine ⟨Or.inr rfl, ?_⟩
            have ht1 : lookupKV "title" p1 = lookupKV "title" a.params :=
              hother1 _ (by decide)
            by_cases htit : paramUnset p1 "title" = true
            · have : lookupKV "title" p1 = none :=
                hunset p1 "title" (fun v hv => by
                  cases hl : lookupKV "title" a.params with
                  | none => rw [ht1, hl] at hv; cases hv
                  | some v0 =>
                    have := hval "title" v0 hl
                    rw [ht1, hl] at hv
                    cases hv
                    exact this) htit
              rw [ht1] at this
              exact this
            · exfalso
              apply hk
              rw [hp2, if_neg htit, ht1]
          · exfalso
            apply hk
            rw [hother2 k hkt, hother1 k hkd]

theorem validateTag_some (svcs : List String) (svc body : String)
    (h1 : svcs.contains (pyLower svc) = true)
    (h2 : (lookupKV "action" (parseParams body)).getD "" ≠ "") :
    validateTag svcs svc body =
      some ⟨pyLower svc, (lookupKV "action" (parseParams body)).getD "",
        parseParams body⟩ := by
  unfold validateTag
  rw [if_pos h1, if_pos h2]

theorem filterMap_eq_map_of_some {α β : Type} (l : List α) (f : α → Option β) (g : α → β)
    (h : ∀ x ∈ l, f x = some (g x)) : l.filterMap f = l.map g := by
  induction l with
  | nil => rfl
  | cons x xs ih =>
    rw [List.map_cons, List.filterMap_cons, h x (by simp)]
    rw [ih (fun y hy => h y (by simp [hy]))]

theorem filterMap_eq_nil_of_none {α β : Type} (l : List α) (f : α → Option β)
    (h : ∀ x ∈ l, f x = none) : l.filterMap f = [] := by
  induction l with
  | nil => rfl
  | cons x xs ih =>
    rw [List.filterMap_cons, h x (by simp)]
    exact ih (fun y hy => h y (by simp [hy]))

/-- Claim C5 (amended): in a reply assembled from bracket-free text
segments and well-formed tags, every tag that names an enabled service
and carries an action key is extracted exactly once, in order, into the
parsed action list (keys whitespace-trimmed, values whitespace- and
quote-trimmed by the parameter parser), and the returned display text is
exactly the inter-tag text passed through the whitespace post-processing:
each matched tag is removed whole, leaving no bracket fragments. -/
theorem valid_tags_extracted_exactly_once (parts : List TagPart) (last : String)
    (svcs : List String)
    (hwf : ∀ p ∈ parts, WellFormedPart p)
    (hlast : ∀ c ∈ last.data, c ≠ '[')
    (hvalid : ∀ p ∈ parts, svcs.contains (pyLower p.svc) = true ∧
      (lookupKV "action" (parseParams p.body)).getD "" ≠ "") :
    parseAndValidateResponse (String.mk (flattenParts parts last)) svcs =
      (postProcessText (String.mk (segsText parts last)),
       parts.map (fun p => ⟨pyLower p.svc,
         (lookupKV "action" (parseParams p.body)).getD "", parseParams p.body⟩)) := by
  unfold parseAndValidateResponse
  rw [show (String.mk (flattenParts parts last)).data = flattenParts parts last from rfl]
  rw [scanTags_flattenParts parts last hwf hlast]
  dsimp only
  congr 1
  rw [List.filterMap_map]
  apply filterMap_eq_map_of_some
  intro p hp
  obtain ⟨h1, h2⟩ := hvalid p hp
  exact validateTag_some svcs p.svc p.body h1 h2

/-- Claim C5 counterexample: a syntactically valid tag is not always
extracted: a tag naming a disabled service, and a tag whose action key
is wrapped in single quotes (the parser trims quotes from values only,
not keys), are both matched by the scanner yet dropped from the parsed
action list. -/
theorem syntactic_tag_not_always_extracted :
    (scanTags "[SERVICE_ACTION: GMAIL | action: LIST_UNREAD]".data).2.length = 1 ∧
    (parseAndValidateResponse "[SERVICE_ACTION: GMAIL | action: LIST_UNREAD]"
      ["calendar"]).2 = [] ∧
    (scanTags quotedKeyTag.data).2.length = 1 ∧
    (parseAndValidateResponse quotedKeyTag ["calendar"]).2 = [] := by
  exact ⟨rfl, rfl, rfl, rfl⟩

/-- Claim C6: tags naming a disabled service or lacking an action verb
are silently dropped without affecting the other tags of the same reply
(the parsed list is the in-order filter of the valid tags), and a reply
whose tags are all invalid is returned as plain conversational text with
an empty action list rather than an error. -/
theorem invalid_tags_silently_dropped (parts : List TagPart) (last : String)
    (svcs : List String)
    (hwf : ∀ p ∈ parts, WellFormedPart p)
    (hlast : ∀ c ∈ last.data, c ≠ '[') :
    (parseAndValidateResponse (String.mk (flattenParts parts last)) svcs).2 =
      parts.filterMap (fun p => validateTag svcs p.svc p.body) ∧
    (parseAndValidateResponse (String.mk (flattenParts parts last)) svcs).1 =
      postProcessText (String.mk (segsText parts last)) ∧
    ((∀ p ∈ parts, validateTag svcs p.svc p.body = none) →
      (parseAndValidateResponse (String.mk (flattenParts parts last)) svcs).2 = []) := by
  have hscan := scanTags_flattenParts parts last hwf hlast
  unfold parseAndValidateResponse
  rw [show (String.mk (flattenParts parts last)).data = flattenParts parts last from rfl,
    hscan]
  dsimp only
  refine ⟨?_, rfl, ?_⟩
  · rw [List.filterMap_map]
    rfl
  · intro hnone
    rw [List.filterMap_map]
    exact filterMap_eq_nil_of_none _ _ (fun p hp => hnone p hp)

/-- Witness for C1. -/
theorem selection_guard_witness :
    (1 ≤ 2 ∧ 2 ≤ 2) ∧
    (handleEmailSelection "5" true "delete" [⟨some "a"⟩, ⟨some "b"⟩] (.ok ())).state =
      BotState.selecting_email := by
  have h1 := (selection_dispatch_in_range_and_bad_reply_preserves "2" true "delete"
    (some "delete") [⟨some "a"⟩, ⟨some "b"⟩] [⟨"e1", "x"⟩] (.ok ()) (.ok true)).1 2 rfl
  have h2 := (selection_dispatch_in_range_and_bad_reply_preserves "5" true "delete"
    (some "delete") [⟨some "a"⟩, ⟨some "b"⟩] [⟨"e1", "x"⟩] (.ok ()) (.ok true)).2.2.1
    (by decide) rfl (by decide) (by decide)
  exact ⟨h1, h2.1⟩

/-- Witness for C2. -/
theorem cancellation_words_witness :
    handleEmailSelection "cancel" true "delete" [] (.ok ()) = ⟨.cancelled, .idle, false⟩ ∧
    handleConfirmation "stop" true "tasks" "create" (.ok true) =
      .ok ⟨.cancelled, .idle⟩ := by
  have h := cancellation_words_by_state
  exact ⟨h.1 "cancel" (by decide) true "delete" [] (.ok ()),
    h.2.2.2.1 "stop" (by decide) true "tasks" "create" (.ok true)⟩

/-- Witness for C3. -/
theorem dispatch_exception_witness :
    handleEmailComposition "yes" true (.error "api down") = .error "api down" ∧
    handleConfirmation "yes" true "tasks" "create" (.error "api down") =
      .error "api down" := by
  have h := dispatch_exception_boundaries "yes" true "delete" none [] [] [] [] []
    true true "tasks" "create" "api down"
  exact ⟨h.2.2.2.2.2.1 (by decide), h.2.2.2.2.2.2 (by decide) (by decide)⟩

/-- Witness for C5. -/
theorem tags_extracted_witness :
    (parseAndValidateResponse (String.mk (flattenParts
      [⟨"Sure. ", "CALENDAR", " action: VIEW_EVENTS | range: today "⟩] " Done."))
      ["calendar"]).2 =
      [⟨"calendar", "VIEW_EVENTS", [("action", "VIEW_EVENTS"), ("range", "today")]⟩] := by
  have h := valid_tags_extracted_exactly_once
    [⟨"Sure. ", "CALENDAR", " action: VIEW_EVENTS | range: today "⟩] " Done." ["calendar"]
    (by
      intro p hp
      rw [List.mem_singleton] at hp
      subst hp
      exact ⟨by decide, by decide, by decide, by decide, by decide⟩)
    (by decide)
    (by
      intro p hp
      rw [List.mem_singleton] at hp
      subst hp
      exact ⟨rfl, by decide⟩)
  have h2 := congrArg Prod.snd h
  simp only at h2
  rw [h2]
  rfl

/-- Witness for C6. -/
theorem invalid_tags_dropped_witness :
    (parseAndValidateResponse (String.mk (flattenParts
      [⟨"a ", "GMAIL", " action: LIST "⟩, ⟨" b ", "CALENDAR", " action: VIEW "⟩] " c"))
      ["calendar"]).2 = [⟨"calendar", "VIEW", [("action", "VIEW")]⟩] := by
  have h := invalid_tags_silently_dropped
    [⟨"a ", "GMAIL", " action: LIST "⟩, ⟨" b ", "CALENDAR", " action: VIEW "⟩] " c"
    ["calendar"]
    (by
      intro p hp
      rw [List.mem_cons, List.mem_singleton] at hp
      rcases hp with rfl | rfl
      · exact ⟨by decide, by decide, by decide, by decide, by decide⟩
      · exact ⟨by decide, by decide, by decide, by decide, by decide⟩)
    (by decide)
  rw [h.1]
  rfl

/-- Witness for C7. -/
theorem prompt_calendar_witness :
    strContains (buildEnhancedPrompt "Friday" "noon" "hello" "" [])
      "[SERVICE_ACTION: CALENDAR" = true ∧
    buildEnhancedPrompt "Friday" "noon" "hello" "" ["a, b"] =
      buildEnhancedPrompt "Friday" "noon" "hello" "" ["a", "b"] := by
  exact ⟨(prompt_always_contains_calendar_actions "Friday" "noon" "hello" "" []).1,
    (prompt_always_contains_calendar_actions "Friday" "noon" "hello" "" []).2
      ["a, b"] ["a", "b"] (by decide)⟩

/-- Witness for C8. -/
theorem single_affirmative_witness :
    handleEmailSelection "yes" true "delete" [⟨some "m1"⟩] (.ok ()) =
      ⟨.dispatched 1, .idle, true⟩ := by
  exact (single_candidate_affirmative_resolution "yes" ⟨some "m1"⟩ "m1"
    (by decide) (by decide) rfl).2.1

/-- Witness for C9. -/
theorem enrichment_witness :
    lookupKV "title" (enhanceAction (pyLower "daily standup")
      ⟨"calendar", "CREATE_EVENT", [("action", "CREATE_EVENT"), ("title", "Standup")]⟩).params =
      some "Standup" := by
  have h := enrichment_is_additive
    "ok [SERVICE_ACTION: CALENDAR | action: CREATE_EVENT | title: Standup]"
    "daily standup" ["calendar"]
    ⟨"calendar", "CREATE_EVENT", [("action", "CREATE_EVENT"), ("title", "Standup")]⟩
    (by decide)
  exact h.2.2.1 "title" "Standup" (by decide)

/-- Witness for C10. -/
theorem delete_404_witness :
    performActualDelete "msg1" ⟨false, "API Error 404: Not Found"⟩ ⟨true, ""⟩ =
      .alreadyDeletedOnCheck := by
  exact ((delete_404_is_success "msg1" ⟨false, "API Error 404: Not Found"⟩ ⟨true, ""⟩
    (by decide)).1 rfl (by decide)).1
